import Mathlib

/-! Landing page form controller (`src/main.js`)

A shallow embedding of the validation, submission and notification code of
the `LandingPage` class, followed by theorems about it.

JavaScript strings are sequences of UTF-16 code units, so a string is a list
of natural numbers; `length` is the number of code units.
-/

namespace LandingPage

/-! ## Strings -/

/-- A JavaScript string: the list of its UTF-16 code units. -/
abbrev JSString := List Nat

/-- UTF-16 code units of one Unicode scalar value. -/
def encodeChar (c : Char) : List Nat :=
  if c.toNat < 0x10000 then [c.toNat]
  else [0xD800 + (c.toNat - 0x10000) / 0x400, 0xDC00 + (c.toNat - 0x10000) % 0x400]

/-- UTF-16 code units of a list of characters. -/
def utf16Chars : List Char → JSString
  | [] => []
  | c :: cs => encodeChar c ++ utf16Chars cs

/-- The JavaScript string written as the given source literal. -/
def utf16 (s : String) : JSString := utf16Chars s.toList

/-- ECMAScript `WhiteSpace` and `LineTerminator` code units: the set removed by
`String.prototype.trim` and matched by the regular-expression escape `\s`. -/
def isWhiteSpace (c : Nat) : Bool :=
  c == 0x9 || c == 0xA || c == 0xB || c == 0xC || c == 0xD || c == 0x20 ||
  c == 0xA0 || c == 0x1680 || (0x2000 ≤ c && c ≤ 0x200A) || c == 0x2028 ||
  c == 0x2029 || c == 0x202F || c == 0x205F || c == 0x3000 || c == 0xFEFF

/-- The method `String.prototype.trimStart`. -/
def trimStart (s : JSString) : JSString := s.dropWhile isWhiteSpace

/-- The method `String.prototype.trimEnd`. -/
def trimEnd (s : JSString) : JSString := (s.reverse.dropWhile isWhiteSpace).reverse

/-- The method `String.prototype.trim`, as in `field.value.trim()`. -/
def trim (s : JSString) : JSString := trimEnd (trimStart s)

/-! ## The regular expression of the `email` rule -/

/-- The pieces the pattern `/^[^\s@]+@[^\s@]+\.[^\s@]+$/` is a sequence of:
a literal code unit, or a greedy `+` over a character class. -/
inductive Atom where
  | lit (c : Nat)
  | plus (cls : Nat → Bool)

/-- Backtracking match of `cls+` followed by the continuation `k`: consume one
code unit of the class, then first try to consume more, and otherwise hand the
rest to `k`. -/
def matchPlus (cls : Nat → Bool) : JSString → (JSString → Bool) → Bool
  | [], _ => false
  | c :: cs, k => cls c && (matchPlus cls cs k || k cs)

/-- Match a sequence of atoms anchored at both ends (`^` ... `$`, no flags). -/
def matchAtoms : List Atom → JSString → Bool
  | [], s => s.isEmpty
  | .lit c :: rest, s =>
    match s with
    | [] => false
    | x :: xs => x == c && matchAtoms rest xs
  | .plus cls :: rest, s => matchPlus cls s (matchAtoms rest)

/-- The class `[^\s@]`. -/
def notSpaceAt (c : Nat) : Bool := !(isWhiteSpace c) && !(c == 0x40)

/-- The constant `emailRegex = /^[^\s@]+@[^\s@]+\.[^\s@]+$/`. -/
def emailRegex : List Atom :=
  [.plus notSpaceAt, .lit 0x40, .plus notSpaceAt, .lit 0x2E, .plus notSpaceAt]

/-- The call `emailRegex.test(value)`. -/
def emailRegexTest (value : JSString) : Bool := matchAtoms emailRegex value

/-! ## Field rules and the page -/

/-- A form control of the contact form. -/
structure Field where
  /-- The attribute `field.name`. -/
  name : JSString
  /-- The current `field.value`. -/
  value : JSString
  /-- The value `form.reset()` restores. -/
  defaultValue : JSString
  /-- Whether the control matches `.form-input, .form-textarea`. -/
  formInput : Bool
  /-- Whether the control has the attribute `required`. -/
  required : Bool
  /-- The element `field.closest('.form-group')`; `none` stands for `null`. -/
  group : Option Nat
deriving DecidableEq

/-- The submit control. -/
structure Button where
  /-- Whether `button.classList` contains `loading`. -/
  loading : Bool
  /-- The property `button.disabled`. -/
  disabled : Bool
deriving DecidableEq

/-- A notification element created by `showNotification`. -/
structure Notification where
  /-- Identity of the element (the order of creation). -/
  id : Nat
  /-- The text placed in `notification__text`. -/
  message : JSString
  /-- The `type` of the class `notification--type`. -/
  type : JSString
  /-- Whether `style.animation` has been set to the reversed slide. -/
  reversed : Bool
  /-- The number of elements of class `notification` among its descendants:
  those the assignment to `innerHTML` built from markup in the message. -/
  nested : Nat
deriving DecidableEq

/-- The part of the document and of the timer queue the controller touches. -/
structure Page where
  /-- The controls of the contact form, in document order. -/
  fields : List Field
  /-- Whether the `.form-group` element carries the class `error`. -/
  groupError : Nat → Bool
  /-- The `textContent` of the element with the given id; `none` when
  `document.getElementById` returns `null`. -/
  errorText : JSString → Option JSString
  /-- The `.form-group` elements inside the form. -/
  formGroups : List Nat
  /-- The ids of the `.form-error` elements inside the form. -/
  formErrors : List JSString
  /-- The submit control handed to `handleFormSubmit`. -/
  button : Button
  /-- The elements `showNotification` has appended to `document.body` and that
  are still attached, in document order. Each one matches `.notification`, and
  so does each of its `nested` descendants. -/
  notifications : List Notification
  /-- Whether the style element `#notification-styles` is present. -/
  notificationStyles : Bool
  /-- The number of notification elements created so far. -/
  created : Nat
  /-- Pending 5000 ms `autoClose` timers, by notification. -/
  autoClose : List Nat
  /-- Pending 300 ms removal timers of `closeNotification`, by notification. -/
  exitTimers : List Nat
  /-- The HTML parser of the browser, as far as `showNotification` observes it:
  the number of elements of class `notification` it builds from a message that
  is assigned through `innerHTML`. It is consulted only for a message that
  contains `<`. -/
  markup : JSString → Nat

/-- Assignment to one key of a map. -/
def setAt {α β : Type} [DecidableEq α] (f : α → β) (a : α) (b : β) : α → β :=
  fun x => if x = a then b else f x

/-- The `switch (name)` of `validateField`: the final values of the locals
`isValid` and `errorMessage` for a field name and its trimmed value. -/
def checkField (name value : JSString) : Bool × JSString :=
  if name = utf16 "name" then
    if value = [] then (false, utf16 "Nome é obrigatório")
    else if value.length < 2 then (false, utf16 "Nome deve ter pelo menos 2 caracteres")
    else (true, [])
  else if name = utf16 "email" then
    if value = [] then (false, utf16 "E-mail é obrigatório")
    else if !(emailRegexTest value) then (false, utf16 "Digite um e-mail válido")
    else (true, [])
  else if name = utf16 "message" then
    if value ≠ [] ∧ value.length < 10 then
      (false, utf16 "Mensagem deve ter pelo menos 10 caracteres")
    else (true, [])
  else (true, [])

/-- The id of the error slot of a field name: the template `name-error`. -/
def errorId (name : JSString) : JSString := name ++ utf16 "-error"

/-- The method `validateField(field)`. The result is `none` when the method
throws a `TypeError` (`formGroup` or `errorElement` is `null`); otherwise it is
the returned `isValid` and the page after the call. -/
def validateField (p : Page) (field : Field) : Option (Bool × Page) :=
  let value := trim field.value
  let name := field.name
  match field.group with
  | none => none
  | some formGroup =>
    -- formGroup.classList.remove('error')
    let p1 := { p with groupError := setAt p.groupError formGroup false }
    match p1.errorText (errorId name) with
    | none => none
    | some _ =>
      -- errorElement.textContent = ''
      let p2 := { p1 with errorText := setAt p1.errorText (errorId name) (some []) }
      let r := checkField name value
      if !r.1 then
        some (r.1, { p2 with
          groupError := setAt p2.groupError formGroup true
          errorText := setAt p2.errorText (errorId name) (some r.2) })
      else some (r.1, p2)

/-- The loop `inputs.forEach(...)` of `validateForm`, carrying the local
`isFormValid`. -/
def validateFormLoop : List Field → Bool → Page → Option (Bool × Page)
  | [], isFormValid, p => some (isFormValid, p)
  | input :: rest, isFormValid, p =>
    match validateField p input with
    | none => none
    | some (isFieldValid, p1) =>
      validateFormLoop rest (if !isFieldValid then false else isFormValid) p1

/-- The node list `form.querySelectorAll('.form-input[required], .form-textarea[required]')`. -/
def requiredInputs (p : Page) : List Field :=
  p.fields.filter (fun f => f.formInput && f.required)

/-- The method `validateForm(form)`. -/
def validateForm (p : Page) : Option (Bool × Page) :=
  validateFormLoop (requiredInputs p) true p

/-! ## Notifications -/

/-- The method `closeNotification(notification)`: set the reversed animation
on the element and start the 300 ms removal timer. -/
def closeNotification (n : Nat) (p : Page) : Page :=
  { p with
    notifications :=
      p.notifications.map (fun x => if x.id = n then { x with reversed := true } else x)
    exitTimers := p.exitTimers ++ [n] }

/-- The elements of class `notification` that `notification.innerHTML = ...`
builds inside the new element from the interpolated message. A tag opens only
at `<` (code unit 0x3C), so a message without it yields text alone; for any
other message the count is the one the parser gives. -/
def nestedNotifications (p : Page) (message : JSString) : Nat :=
  if 0x3C ∈ message then p.markup message else 0

/-- The method `showNotification(message, type)`. The element found by
`document.querySelector('.notification')` is the first one in document order,
the head of `notifications`; removing it removes its descendants with it. The
message is parsed as HTML by the assignment to `innerHTML`; of what the parser
builds from it, the elements of class `notification` are tracked. -/
def showNotification (message type : JSString) (p : Page) : Page :=
  -- document.querySelector('.notification') and existingNotification.remove()
  let remaining :=
    match p.notifications with
    | [] => []
    | _ :: rest => rest
  let notification : Notification :=
    { id := p.created, message := message, type := type, reversed := false,
      nested := nestedNotifications p message }
  { p with
    notifications := remaining ++ [notification]
    notificationStyles := true
    created := p.created + 1
    autoClose := p.autoClose ++ [notification.id] }

/-- What can happen to notifications: a call of `showNotification`, a click on
the close control of a notification, the 5000 ms timer of a notification
firing, and a 300 ms removal timer firing. -/
inductive Event where
  | showCall (message type : JSString)
  | closeClick (n : Nat)
  | autoCloseFires (n : Nat)
  | exitFires (n : Nat)

/-- One event. A click needs the notification to be attached, and a timer can
fire only while it is pending; otherwise nothing happens. -/
def step (p : Page) : Event → Page
  | .showCall message type => showNotification message type p
  | .closeClick n =>
    if p.notifications.any (fun x => x.id == n) then
      -- clearTimeout(autoClose); this.closeNotification(notification)
      closeNotification n { p with autoClose := p.autoClose.erase n }
    else p
  | .autoCloseFires n =>
    if n ∈ p.autoClose then
      closeNotification n { p with autoClose := p.autoClose.erase n }
    else p
  | .exitFires n =>
    if n ∈ p.exitTimers then
      -- if (notification.parentNode) notification.remove()
      { p with
        exitTimers := p.exitTimers.erase n
        notifications := p.notifications.filter (fun x => x.id != n) }
    else p

/-- A sequence of events, left to right. -/
def run (p : Page) (events : List Event) : Page := events.foldl step p

/-- The number of elements matching `.notification` that are attached to the
document: every attached notification and its nested descendants. -/
def attachedCount (p : Page) : Nat :=
  (p.notifications.map (fun x => 1 + x.nested)).sum

/-! ## Submission -/

/-- The statements of `handleFormSubmit` after `validateForm` has returned. -/
inductive Stmt where
  /-- The call `this.showNotification(message, type)`. -/
  | showNotification (message type : JSString)
  /-- The statement `button.classList.add('loading')`. -/
  | addLoading
  /-- The statement `button.disabled = b`. -/
  | setDisabled (b : Bool)
  /-- The statement `await this.simulateFormSubmission(form)`. -/
  | simulateFormSubmission
  /-- The call `form.reset()`. -/
  | formReset
  /-- Removal of `error` from every `.form-group` of the form. -/
  | clearGroupErrors
  /-- Emptying of every `.form-error` of the form. -/
  | clearErrorTexts
  /-- The statement `button.classList.remove('loading')`. -/
  | removeLoading
deriving DecidableEq

/-- The promise of `simulateFormSubmission`: it resolves when the comparison
`Math.random() > 0.1` holds and rejects otherwise. -/
def simulateFormSubmission (aboveThreshold : Bool) : Except Unit Unit :=
  if aboveThreshold then .ok () else .error ()

/-- Effect of one statement. While the handler is suspended at the `await`,
other handlers of the page run; `during` is their combined effect. -/
def exec (during : Page → Page) : Stmt → Page → Page
  | .showNotification message type, p => showNotification message type p
  | .addLoading, p => { p with button := { p.button with loading := true } }
  | .setDisabled b, p => { p with button := { p.button with disabled := b } }
  | .simulateFormSubmission, p => during p
  | .formReset, p =>
    { p with fields := p.fields.map (fun f => { f with value := f.defaultValue }) }
  | .clearGroupErrors, p =>
    { p with groupError := fun g => if g ∈ p.formGroups then false else p.groupError g }
  | .clearErrorTexts, p =>
    { p with errorText := fun i =>
        if i ∈ p.formErrors then (p.errorText i).map (fun _ => []) else p.errorText i }
  | .removeLoading, p => { p with button := { p.button with loading := false } }

/-- The statements `handleFormSubmit` executes once `validateForm` has returned
`isValid`, in order, for a given settlement of the simulated submission. -/
def submitStmts (isValid aboveThreshold : Bool) : List Stmt :=
  if !isValid then
    [.showNotification (utf16 "Por favor, corrija os erros no formulário.") (utf16 "error")]
  else
    [.addLoading, .setDisabled true, .simulateFormSubmission] ++
    (match simulateFormSubmission aboveThreshold with
      | .ok _ =>
        [.showNotification
            (utf16 "Mensagem enviada com sucesso! Entraremos em contato em breve.")
            (utf16 "success"),
          .formReset, .clearGroupErrors, .clearErrorTexts]
      | .error _ =>
        [.showNotification (utf16 "Erro ao enviar mensagem. Tente novamente.")
            (utf16 "error")]) ++
    -- finally
    [.removeLoading, .setDisabled false]

/-- Execute statements in order, recording each with the page at the moment it
is executed; the second component is the page at the end. -/
def execAll (during : Page → Page) : List Stmt → Page → List (Stmt × Page) × Page
  | [], p => ([], p)
  | s :: rest, p =>
    let r := execAll during rest (exec during s p)
    ((s, p) :: r.1, r.2)

/-- The method `handleFormSubmit(form, button)`, run to completion: `none` when
validation throws, otherwise the statements executed after validation, each
with the page it was executed on, and the page at completion. -/
def handleFormSubmit (during : Page → Page) (aboveThreshold : Bool) (p : Page) :
    Option (List (Stmt × Page) × Page) :=
  match validateForm p with
  | none => none
  | some (isValid, p1) => some (execAll during (submitStmts isValid aboveThreshold) p1)

/-! ## Reading of the claims -/

/-- Declarative reading of an anchored sequence of atoms: the string splits
into one piece per atom. -/
def Matches : List Atom → JSString → Prop
  | [], s => s = []
  | .lit c :: rest, s => ∃ xs, s = c :: xs ∧ Matches rest xs
  | .plus cls :: rest, s =>
    ∃ a b, s = a ++ b ∧ a ≠ [] ∧ (∀ x ∈ a, cls x = true) ∧ Matches rest b

/-- No whitespace and no `@` in a string. -/
def Plain (s : JSString) : Prop := ∀ c ∈ s, isWhiteSpace c = false ∧ c ≠ 0x40

/-- The form `L@S` of the email contract: `L` is non-empty, `L` and `S` have no
whitespace and no `@`, and `S` contains a `.` that is neither its first nor its
last code unit. -/
def EmailShape (t : JSString) : Prop :=
  ∃ L S, t = L ++ 0x40 :: S ∧ L ≠ [] ∧ Plain L ∧ Plain S ∧
    ∃ D T, S = D ++ 0x2E :: T ∧ D ≠ [] ∧ T ≠ []

/-- The call `validateField(field)` returns `false` and leaves `message` in the
error slot of the field. -/
def Rejects (p : Page) (field : Field) (message : JSString) : Prop :=
  ∃ p', validateField p field = some (false, p') ∧
    p'.errorText (errorId field.name) = some message

/-- The call `validateField(field)` returns `true`. -/
def Accepts (p : Page) (field : Field) : Prop :=
  ∃ p', validateField p field = some (true, p')

/-- A required input of the demonstration form. -/
def demoField (name value : String) (g : Nat) : Field :=
  { name := utf16 name, value := utf16 value, defaultValue := [],
    formInput := true, required := true, group := some g }

/-- A form with one invalid and two valid required fields. -/
def demoForm : List Field :=
  [demoField "name" "A" 1, demoField "email" "jo@x.com" 2,
    demoField "message" "this is long enough" 3]

/-- The form of the end-to-end scenario: every required field is valid. -/
def validForm : List Field :=
  [demoField "name" "Jo" 1, demoField "email" "jo@x.com" 2]

/-- The parser on the demonstration pages. The only message with `<` shown
there is `<div class=notification>x</div>`, from which the parser builds one
element of class `notification`. -/
def demoMarkup (message : JSString) : Nat :=
  if message = utf16 "<div class=notification>x</div>" then 1 else 0

/-- A page holding the given form, each field with an error slot, and nothing
displayed. -/
def demoPage (fields : List Field) : Page :=
  { fields := fields
    groupError := fun _ => false
    errorText := fun i => if fields.any (fun f => errorId f.name == i) then some [] else none
    formGroups := fields.filterMap (fun f => f.group)
    formErrors := fields.map (fun f => errorId f.name)
    button := { loading := false, disabled := false }
    notifications := []
    notificationStyles := false
    created := 0
    autoClose := []
    exitTimers := []
    markup := demoMarkup }

/-! ## Lemmas -/

theorem matchPlus_iff (cls : Nat → Bool) (k : JSString → Bool) (s : JSString) :
    matchPlus cls s k = true ↔
      ∃ a b, s = a ++ b ∧ a ≠ [] ∧ (∀ x ∈ a, cls x = true) ∧ k b = true := by
  induction s with
  | nil =>
    simp only [matchPlus, Bool.false_eq_true, false_iff]
    rintro ⟨a, b, h, ha, -⟩
    cases a with
    | nil => exact ha rfl
    | cons x xs => simp at h
  | cons c cs ih =>
    simp only [matchPlus, Bool.and_eq_true, Bool.or_eq_true, ih]
    constructor
    · rintro ⟨hc, h | h⟩
      · obtain ⟨a, b, rfl, -, hcls, hk⟩ := h
        refine ⟨c :: a, b, rfl, by simp, ?_, hk⟩
        intro x hx
        rcases List.mem_cons.1 hx with rfl | hx
        · exact hc
        · exact hcls x hx
      · exact ⟨[c], cs, rfl, by simp, by simpa using hc, h⟩
    · rintro ⟨a, b, h, ha, hcls, hk⟩
      cases a with
      | nil => exact absurd rfl ha
      | cons x xs =>
        simp only [List.cons_append, List.cons.injEq] at h
        obtain ⟨rfl, rfl⟩ := h
        refine ⟨hcls _ (List.mem_cons_self _ _), ?_⟩
        cases xs with
        | nil => right; simpa using hk
        | cons y ys =>
          left
          exact ⟨y :: ys, b, rfl, by simp,
            fun z hz => hcls z (List.mem_cons_of_mem _ hz), hk⟩

theorem matchAtoms_iff (atoms : List Atom) (s : JSString) :
    matchAtoms atoms s = true ↔ Matches atoms s := by
  induction atoms generalizing s with
  | nil => simp [matchAtoms, Matches]
  | cons a rest ih =>
    cases a with
    | lit c =>
      cases s with
      | nil => simp [matchAtoms, Matches]
      | cons x xs =>
        simp only [matchAtoms, Matches, Bool.and_eq_true, beq_iff_eq, ih, List.cons.injEq]
        constructor
        · rintro ⟨rfl, h⟩
          exact ⟨xs, ⟨rfl, rfl⟩, h⟩
        · rintro ⟨ys, ⟨rfl, rfl⟩, h⟩
          exact ⟨rfl, h⟩
    | plus cls =>
      simp only [matchAtoms, Matches, matchPlus_iff, ih]

theorem notSpaceAt_iff (c : Nat) :
    notSpaceAt c = true ↔ isWhiteSpace c = false ∧ c ≠ 0x40 := by
  simp [notSpaceAt]

theorem emailRegexTest_iff (t : JSString) : emailRegexTest t = true ↔ EmailShape t := by
  unfold emailRegexTest emailRegex
  rw [matchAtoms_iff]
  simp only [Matches, notSpaceAt_iff]
  constructor
  · rintro ⟨L, r1, rfl, hL, hLp, S0, rfl, D, r2, rfl, hD, hDp, T0, rfl, T, r3, rfl, hT, hTp, rfl⟩
    refine ⟨L, D ++ 0x2E :: T, by simp, hL, hLp, ?_, D, T, by simp, hD, hT⟩
    intro c hc
    simp only [List.append_nil, List.mem_append, List.mem_cons] at hc
    rcases hc with hc | rfl | hc
    · exact hDp c hc
    · exact ⟨by decide, by decide⟩
    · exact hTp c hc
  · rintro ⟨L, S, rfl, hL, hLp, hSp, D, T, rfl, hD, hT⟩
    refine ⟨L, _, rfl, hL, hLp, _, rfl, D, _, rfl, hD, ?_, _, rfl, T, [], by simp, hT, ?_, rfl⟩
    · exact fun c hc => hSp c (List.mem_append_left _ hc)
    · exact fun c hc => hSp c (List.mem_append_right _ (List.mem_cons_of_mem _ hc))

theorem checkField_message_of_valid (name value : JSString)
    (h : (checkField name value).1 = true) : (checkField name value).2 = [] := by
  unfold checkField at h ⊢
  split_ifs at h ⊢ <;> simp_all

theorem setAt_same {α β : Type} [DecidableEq α] (f : α → β) (a : α) (b : β) :
    setAt f a b a = b := by
  simp [setAt]

theorem setAt_other {α β : Type} [DecidableEq α] (f : α → β) (a x : α) (b : β)
    (h : x ≠ a) : setAt f a b x = f x := by
  simp [setAt, h]

theorem setAt_setAt {α β : Type} [DecidableEq α] (f : α → β) (a : α) (b c : β) :
    setAt (setAt f a b) a c = setAt f a c := by
  funext x
  by_cases h : x = a <;> simp [setAt, h]

/-- The result of `validateField` when the container and the error slot of the
field exist. -/
theorem validateField_eq (p : Page) (field : Field) (g : Nat) (old : JSString)
    (hg : field.group = some g) (hslot : p.errorText (errorId field.name) = some old) :
    validateField p field =
      some ((checkField field.name (trim field.value)).1,
        { p with
          groupError := setAt p.groupError g (!(checkField field.name (trim field.value)).1)
          errorText := setAt p.errorText (errorId field.name)
            (some (checkField field.name (trim field.value)).2) }) := by
  have hs : setAt p.groupError g false (g) = false := setAt_same _ _ _
  unfold validateField
  simp only [hg, hslot]
  cases hv : (checkField field.name (trim field.value)).1 with
  | true =>
    have hm := checkField_message_of_valid _ _ hv
    simp [hm]
  | false =>
    simp [setAt_setAt]

theorem rejects_iff (p : Page) (field : Field) (g : Nat) (old message : JSString)
    (hg : field.group = some g) (hslot : p.errorText (errorId field.name) = some old) :
    Rejects p field message ↔
      checkField field.name (trim field.value) = (false, message) := by
  unfold Rejects
  rw [validateField_eq p field g old hg hslot]
  constructor
  · rintro ⟨p', h, ht⟩
    simp only [Option.some.injEq, Prod.mk.injEq] at h
    obtain ⟨hv, rfl⟩ := h
    simp only [setAt_same, Option.some.injEq] at ht
    exact Prod.ext hv ht
  · intro h
    rw [h]
    exact ⟨_, rfl, by simp [setAt_same]⟩

theorem accepts_iff (p : Page) (field : Field) (g : Nat) (old : JSString)
    (hg : field.group = some g) (hslot : p.errorText (errorId field.name) = some old) :
    Accepts p field ↔ (checkField field.name (trim field.value)).1 = true := by
  unfold Accepts
  rw [validateField_eq p field g old hg hslot]
  constructor
  · rintro ⟨p', h⟩
    simp only [Option.some.injEq, Prod.mk.injEq] at h
    exact h.1
  · intro h
    exact ⟨_, by rw [h]⟩

theorem checkField_name (t : JSString) :
    checkField (utf16 "name") t =
      if t = [] then (false, utf16 "Nome é obrigatório")
      else if t.length < 2 then (false, utf16 "Nome deve ter pelo menos 2 caracteres")
      else (true, []) := by
  unfold checkField
  rw [if_pos rfl]

theorem checkField_email (t : JSString) :
    checkField (utf16 "email") t =
      if t = [] then (false, utf16 "E-mail é obrigatório")
      else if !(emailRegexTest t) then (false, utf16 "Digite um e-mail válido")
      else (true, []) := by
  unfold checkField
  rw [if_neg (by decide), if_pos rfl]

theorem checkField_message (t : JSString) :
    checkField (utf16 "message") t =
      if t ≠ [] ∧ t.length < 10 then
        (false, utf16 "Mensagem deve ter pelo menos 10 caracteres")
      else (true, []) := by
  unfold checkField
  rw [if_neg (by decide), if_neg (by decide), if_pos rfl]

theorem emailShape_ne_nil (t : JSString) (h : EmailShape t) : t ≠ [] := by
  obtain ⟨L, S, rfl, -⟩ := h
  simp

theorem emailShape_no_space (t : JSString) (h : EmailShape t) :
    ∀ c ∈ t, isWhiteSpace c = false := by
  obtain ⟨L, S, rfl, -, hL, hS, -⟩ := h
  intro c hc
  simp only [List.mem_append, List.mem_cons] at hc
  rcases hc with hc | rfl | hc
  · exact (hL c hc).1
  · decide
  · exact (hS c hc).1

/-! ## The field rules -/

/-- C1: for the `email` field with trimmed value `t`, `validateField` returns
invalid with 'E-mail é obrigatório' when `t` is empty, returns valid exactly when
`t` has the form `L@S` of `EmailShape`, and returns invalid with 'Digite um
e-mail válido' for every other non-empty `t`; 'a@b.com' is valid and 'a@b' is
invalid. -/
theorem validateField_email (p : Page) (field : Field) (g : Nat) (old : JSString)
    (hname : field.name = utf16 "email") (hg : field.group = some g)
    (hslot : p.errorText (errorId field.name) = some old) :
    (trim field.value = [] → Rejects p field (utf16 "E-mail é obrigatório")) ∧
    (Accepts p field ↔ EmailShape (trim field.value)) ∧
    (trim field.value ≠ [] → ¬ EmailShape (trim field.value) →
      Rejects p field (utf16 "Digite um e-mail válido")) ∧
    (field.value = utf16 "a@b.com" → Accepts p field) ∧
    (field.value = utf16 "a@b" → Rejects p field (utf16 "Digite um e-mail válido")) := by
  have hr := fun m => rejects_iff p field g old m hg hslot
  have ha := accepts_iff p field g old hg hslot
  rw [hname] at hr ha
  simp only [hr, ha, checkField_email]
  refine ⟨?_, ?_, ?_, ?_, ?_⟩
  · intro h
    rw [if_pos h]
  · by_cases h : trim field.value = []
    · rw [if_pos h]
      constructor
      · intro h1
        cases h1
      · intro h1
        exact absurd h (emailShape_ne_nil _ h1)
    · rw [if_neg h, ← emailRegexTest_iff]
      cases emailRegexTest (trim field.value) <;> simp
  · intro h h1
    rw [← emailRegexTest_iff] at h1
    rw [if_neg h]
    simp [h1]
  · intro h
    rw [h]
    decide
  · intro h
    rw [h]
    decide

/-- Witness of C1 on a form with one email field holding 'a@b.com'. -/
theorem validateField_email_witness :
    (demoField "email" "a@b.com" 2).name = utf16 "email" ∧
    (demoField "email" "a@b.com" 2).group = some 2 ∧
    (demoPage [demoField "email" "a@b.com" 2]).errorText
      (errorId (demoField "email" "a@b.com" 2).name) = some [] ∧
    Accepts (demoPage [demoField "email" "a@b.com" 2]) (demoField "email" "a@b.com" 2) :=
  ⟨by decide, by decide, by decide,
    (validateField_email (demoPage [demoField "email" "a@b.com" 2])
      (demoField "email" "a@b.com" 2) 2 [] (by decide) (by decide) (by decide)).2.2.2.1
      (by decide)⟩

/-- C2: for the `name` field with trimmed value `t`, `validateField` returns
invalid with 'Nome é obrigatório' if `t` is empty, invalid with 'Nome deve ter
pelo menos 2 caracteres' if `t` is non-empty and shorter than 2, and valid
otherwise; '' is required, 'A' is too short, 'Al' is valid. -/
theorem validateField_name (p : Page) (field : Field) (g : Nat) (old : JSString)
    (hname : field.name = utf16 "name") (hg : field.group = some g)
    (hslot : p.errorText (errorId field.name) = some old) :
    (trim field.value = [] → Rejects p field (utf16 "Nome é obrigatório")) ∧
    (trim field.value ≠ [] → (trim field.value).length < 2 →
      Rejects p field (utf16 "Nome deve ter pelo menos 2 caracteres")) ∧
    (trim field.value ≠ [] → 2 ≤ (trim field.value).length → Accepts p field) ∧
    (field.value = utf16 "" → Rejects p field (utf16 "Nome é obrigatório")) ∧
    (field.value = utf16 "A" →
      Rejects p field (utf16 "Nome deve ter pelo menos 2 caracteres")) ∧
    (field.value = utf16 "Al" → Accepts p field) := by
  have hr := fun m => rejects_iff p field g old m hg hslot
  have ha := accepts_iff p field g old hg hslot
  rw [hname] at hr ha
  simp only [hr, ha, checkField_name]
  refine ⟨?_, ?_, ?_, ?_, ?_, ?_⟩
  · intro h
    rw [if_pos h]
  · intro h h2
    rw [if_neg h, if_pos h2]
  · intro h h2
    rw [if_neg h, if_neg (by omega)]
  · intro h
    rw [h]
    decide
  · intro h
    rw [h]
    decide
  · intro h
    rw [h]
    decide

/-- Witness of C2 on a form with one name field holding 'A'. -/
theorem validateField_name_witness :
    (demoField "name" "A" 1).name = utf16 "name" ∧
    (demoField "name" "A" 1).group = some 1 ∧
    (demoPage [demoField "name" "A" 1]).errorText
      (errorId (demoField "name" "A" 1).name) = some [] ∧
    Rejects (demoPage [demoField "name" "A" 1]) (demoField "name" "A" 1)
      (utf16 "Nome deve ter pelo menos 2 caracteres") :=
  ⟨by decide, by decide, by decide,
    (validateField_name (demoPage [demoField "name" "A" 1])
      (demoField "name" "A" 1) 1 [] (by decide) (by decide) (by decide)).2.2.2.2.1
      (by decide)⟩

/-- C3: for the `message` field with trimmed value `t`, `validateField` returns
valid if and only if `t` is empty or has length at least 10, and otherwise
returns invalid with 'Mensagem deve ter pelo menos 10 caracteres'; '' is valid,
'short' is too short, 'this is long enough' is valid. -/
theorem validateField_message (p : Page) (field : Field) (g : Nat) (old : JSString)
    (hname : field.name = utf16 "message") (hg : field.group = some g)
    (hslot : p.errorText (errorId field.name) = some old) :
    (Accepts p field ↔ (trim field.value = [] ∨ 10 ≤ (trim field.value).length)) ∧
    (¬ (trim field.value = [] ∨ 10 ≤ (trim field.value).length) →
      Rejects p field (utf16 "Mensagem deve ter pelo menos 10 caracteres")) ∧
    (field.value = utf16 "" → Accepts p field) ∧
    (field.value = utf16 "short" →
      Rejects p field (utf16 "Mensagem deve ter pelo menos 10 caracteres")) ∧
    (field.value = utf16 "this is long enough" → Accepts p field) := by
  have hr := fun m => rejects_iff p field g old m hg hslot
  have ha := accepts_iff p field g old hg hslot
  rw [hname] at hr ha
  simp only [hr, ha, checkField_message]
  refine ⟨?_, ?_, ?_, ?_, ?_⟩
  · by_cases h : trim field.value ≠ [] ∧ (trim field.value).length < 10
    · rw [if_pos h]
      constructor
      · intro h1
        cases h1
      · rintro (h1 | h1)
        · exact absurd h1 h.1
        · omega
    · rw [if_neg h]
      simp only [true_iff]
      by_cases h0 : trim field.value = []
      · exact Or.inl h0
      · exact Or.inr (by
          by_contra h2
          exact h ⟨h0, by omega⟩)
  · intro h
    rw [if_pos]
    constructor
    · exact fun h0 => h (Or.inl h0)
    · by_contra h2
      exact h (Or.inr (by omega))
  · intro h
    rw [h]
    decide
  · intro h
    rw [h]
    decide
  · intro h
    rw [h]
    decide

/-- Witness of C3 on a form with one message field holding 'short'. -/
theorem validateField_message_witness :
    (demoField "message" "short" 3).name = utf16 "message" ∧
    (demoField "message" "short" 3).group = some 3 ∧
    (demoPage [demoField "message" "short" 3]).errorText
      (errorId (demoField "message" "short" 3).name) = some [] ∧
    Rejects (demoPage [demoField "message" "short" 3]) (demoField "message" "short" 3)
      (utf16 "Mensagem deve ter pelo menos 10 caracteres") :=
  ⟨by decide, by decide, by decide,
    (validateField_message (demoPage [demoField "message" "short" 3])
      (demoField "message" "short" 3) 3 [] (by decide) (by decide) (by decide)).2.2.2.1
      (by decide)⟩

/-- C10, as stated, fails: the value ' a@b.com' contains a whitespace code unit
and `validateField` returns `true` for it, so it is not rejected. -/
theorem email_leading_space_accepted :
    (∃ c ∈ (demoField "email" " a@b.com" 2).value, isWhiteSpace c = true) ∧
    Accepts (demoPage [demoField "email" " a@b.com" 2]) (demoField "email" " a@b.com" 2) ∧
    ∀ m, ¬ Rejects (demoPage [demoField "email" " a@b.com" 2])
      (demoField "email" " a@b.com" 2) m := by
  refine ⟨⟨0x20, by decide, by decide⟩, ?_, ?_⟩
  · exact (accepts_iff _ _ 2 [] (by decide) (by decide)).2 (by decide)
  · intro m h
    rw [rejects_iff _ _ 2 [] m (by decide) (by decide)] at h
    have h1 : (checkField (demoField "email" " a@b.com" 2).name
        (trim (demoField "email" " a@b.com" 2).value)).1 = false := by rw [h]
    revert h1
    decide

/-- C10, amended: an `email` value that still contains a whitespace code unit
after trimming is rejected with 'Digite um e-mail válido'. -/
theorem email_inner_space_rejected (p : Page) (field : Field) (g : Nat)
    (old : JSString) (hname : field.name = utf16 "email") (hg : field.group = some g)
    (hslot : p.errorText (errorId field.name) = some old)
    (h : ∃ c ∈ trim field.value, isWhiteSpace c = true) :
    Rejects p field (utf16 "Digite um e-mail válido") := by
  obtain ⟨c, hc, hw⟩ := h
  rw [rejects_iff p field g old _ hg hslot, hname, checkField_email]
  have hne : trim field.value ≠ [] := List.ne_nil_of_mem hc
  have hre : emailRegexTest (trim field.value) = false := by
    cases hm : emailRegexTest (trim field.value) with
    | false => rfl
    | true =>
      have := emailShape_no_space _ ((emailRegexTest_iff _).1 hm) c hc
      rw [hw] at this
      cases this
  rw [if_neg hne, hre]
  rfl

/-- Witness of the amended C10 on the value 'a b@c.com'. -/
theorem email_inner_space_rejected_witness :
    (∃ c ∈ trim (demoField "email" "a b@c.com" 2).value, isWhiteSpace c = true) ∧
    Rejects (demoPage [demoField "email" "a b@c.com" 2]) (demoField "email" "a b@c.com" 2)
      (utf16 "Digite um e-mail válido") :=
  ⟨⟨0x20, by decide, by decide⟩,
    email_inner_space_rejected (demoPage [demoField "email" "a b@c.com" 2])
      (demoField "email" "a b@c.com" 2) 2 [] (by decide) (by decide) (by decide)
      ⟨0x20, by decide, by decide⟩⟩

/-! ## Display state -/

/-- C5: whatever the field name, its value and the display state before the
call, after `validateField` the container carries the error mark if and only if
the verdict is invalid, the error slot holds the message of the rule when
invalid and the empty string when valid; the resulting display depends only on
the name and the value, and a second call on the unchanged value returns the
same verdict and leaves the page as it is. -/
theorem validateField_display (p : Page) (field : Field) (g : Nat) (old : JSString)
    (hg : field.group = some g) (hslot : p.errorText (errorId field.name) = some old) :
    ∃ p', validateField p field = some ((checkField field.name (trim field.value)).1, p') ∧
      (p'.groupError g = true ↔ (checkField field.name (trim field.value)).1 = false) ∧
      p'.errorText (errorId field.name) =
        some (if (checkField field.name (trim field.value)).1 then []
          else (checkField field.name (trim field.value)).2) ∧
      (∀ (q : Page) (old2 : JSString), q.errorText (errorId field.name) = some old2 →
        ∃ q', validateField q field =
            some ((checkField field.name (trim field.value)).1, q') ∧
          q'.groupError g = p'.groupError g ∧
          q'.errorText (errorId field.name) = p'.errorText (errorId field.name)) ∧
      validateField p' field = some ((checkField field.name (trim field.value)).1, p') := by
  refine ⟨_, validateField_eq p field g old hg hslot, ?_, ?_, ?_, ?_⟩
  · simp only [setAt_same]
    cases (checkField field.name (trim field.value)).1 <;> simp
  · simp only [setAt_same]
    cases hv : (checkField field.name (trim field.value)).1 with
    | true => simp [checkField_message_of_valid _ _ hv]
    | false => simp
  · intro q old2 hq
    exact ⟨_, validateField_eq q field g old2 hg hq, by simp only [setAt_same],
      by simp only [setAt_same]⟩
  · rw [validateField_eq _ field g (checkField field.name (trim field.value)).2 hg
      (by simp only [setAt_same])]
    simp only [setAt_setAt]

/-- Witness of C5: a name field holding 'A' whose display shows a stale mark
and a stale text. -/
theorem validateField_display_witness :
    (demoField "name" "A" 1).group = some 1 ∧
    ({ demoPage [demoField "name" "A" 1] with
        groupError := fun _ => true
        errorText := fun _ => some (utf16 "stale") } : Page).errorText
      (errorId (demoField "name" "A" 1).name) = some (utf16 "stale") ∧
    ∃ p', validateField
        { demoPage [demoField "name" "A" 1] with
          groupError := fun _ => true
          errorText := fun _ => some (utf16 "stale") }
        (demoField "name" "A" 1) = some (false, p') ∧
      p'.groupError 1 = true ∧
      p'.errorText (errorId (demoField "name" "A" 1).name) =
        some (utf16 "Nome deve ter pelo menos 2 caracteres") ∧
      validateField p' (demoField "name" "A" 1) = some (false, p') := by
  obtain ⟨p', h1, h2, h3, -, h5⟩ := validateField_display
    { demoPage [demoField "name" "A" 1] with
      groupError := fun _ => true
      errorText := fun _ => some (utf16 "stale") }
    (demoField "name" "A" 1) 1 (utf16 "stale") (by decide) (by decide)
  have hv : checkField (demoField "name" "A" 1).name (trim (demoField "name" "A" 1).value) =
      (false, utf16 "Nome deve ter pelo menos 2 caracteres") := by decide
  rw [hv] at h1 h2 h3 h5
  exact ⟨by decide, by decide, p', h1, h2.2 rfl, h3, h5⟩

/-! ## The whole form -/

theorem errorId_injective (a b : JSString) (h : errorId a = errorId b) : a = b :=
  List.append_cancel_right h

theorem exists_rejects_iff (p : Page) (field : Field) (g : Nat) (old : JSString)
    (hg : field.group = some g) (hslot : p.errorText (errorId field.name) = some old) :
    (∃ m, Rejects p field m) ↔ (checkField field.name (trim field.value)).1 = false := by
  constructor
  · rintro ⟨m, h⟩
    rw [rejects_iff p field g old m hg hslot] at h
    rw [h]
  · intro h
    refine ⟨(checkField field.name (trim field.value)).2, ?_⟩
    rw [rejects_iff p field g old _ hg hslot]
    exact Prod.ext h rfl

/-- The loop of `validateForm` visits every input: the verdicts are combined
with the incoming `isFormValid`, every visited field gets its own mark and text,
and nothing else on the page changes. -/
theorem validateFormLoop_spec (fs : List Field) (acc : Bool) (p : Page)
    (hgroup : ∀ f ∈ fs, f.group ≠ none)
    (hslot : ∀ f ∈ fs, p.errorText (errorId f.name) ≠ none)
    (hnames : fs.Pairwise (fun a b => a.name ≠ b.name))
    (hgroups : fs.Pairwise (fun a b => a.group ≠ b.group)) :
    ∃ p', validateFormLoop fs acc p =
        some (acc && fs.all (fun f => (checkField f.name (trim f.value)).1), p') ∧
      (∀ f ∈ fs, ∀ g, f.group = some g →
        p'.groupError g = !(checkField f.name (trim f.value)).1) ∧
      (∀ f ∈ fs, p'.errorText (errorId f.name) =
        some (checkField f.name (trim f.value)).2) ∧
      (∀ g, (∀ f ∈ fs, f.group ≠ some g) → p'.groupError g = p.groupError g) ∧
      (∀ i, (∀ f ∈ fs, errorId f.name ≠ i) → p'.errorText i = p.errorText i) ∧
      p' = { p with groupError := p'.groupError, errorText := p'.errorText } := by
  induction fs generalizing acc p with
  | nil =>
    exact ⟨p, by simp [validateFormLoop], by simp, by simp, fun _ _ => rfl, fun _ _ => rfl, rfl⟩
  | cons f rest ih =>
    obtain ⟨g, hg⟩ := Option.ne_none_iff_exists'.1 (hgroup f (List.mem_cons_self _ _))
    obtain ⟨old, hold⟩ := Option.ne_none_iff_exists'.1 (hslot f (List.mem_cons_self _ _))
    have hf := validateField_eq p f g old hg hold
    rw [List.pairwise_cons] at hnames hgroups
    obtain ⟨p', h1, h2, h3, h4, h5, h6⟩ := ih
      (if !(checkField f.name (trim f.value)).1 then false else acc)
      { p with
        groupError := setAt p.groupError g (!(checkField f.name (trim f.value)).1)
        errorText := setAt p.errorText (errorId f.name)
          (some (checkField f.name (trim f.value)).2) }
      (fun x hx => hgroup x (List.mem_cons_of_mem _ hx))
      (fun x hx => by
        by_cases hi : errorId x.name = errorId f.name
        · simp [setAt, hi]
        · simpa [setAt, hi] using hslot x (List.mem_cons_of_mem _ hx))
      hnames.2 hgroups.2
    refine ⟨p', ?_, ?_, ?_, ?_, ?_, ?_⟩
    · simp only [validateFormLoop, hf, h1, List.all_cons]
      cases (checkField f.name (trim f.value)).1 <;> cases acc <;> simp
    · intro x hx gx hgx
      rcases List.mem_cons.1 hx with rfl | hx
      · rw [hg] at hgx
        cases hgx
        rw [h4 g (fun y hy => by rw [← hg]; exact fun h => hgroups.1 y hy h.symm)]
        simp [setAt]
      · exact h2 x hx gx hgx
    · intro x hx
      rcases List.mem_cons.1 hx with rfl | hx
      · rw [h5 _ (fun y hy h => hnames.1 y hy (errorId_injective _ _ h).symm)]
        simp [setAt]
      · exact h3 x hx
    · intro g0 hg0
      rw [h4 g0 (fun y hy => hg0 y (List.mem_cons_of_mem _ hy))]
      have : g0 ≠ g := fun h => hg0 f (List.mem_cons_self _ _) (by rw [hg, h])
      simp [setAt, this]
    · intro i hi
      rw [h5 i (fun y hy => hi y (List.mem_cons_of_mem _ hy))]
      have : i ≠ errorId f.name := fun h => hi f (List.mem_cons_self _ _) h.symm
      simp [setAt, this]
    · rw [h6]

/-- C4: on a form whose required fields have pairwise distinct names and
pairwise distinct containers, from any display state, `validateForm` returns
`true` if and only if `validateField` returns valid for every required field,
and it visits them all: afterwards the container of every required field
carries the error mark exactly when that field is invalid, and its error slot
holds the message of its rule. -/
theorem validateForm_all (p : Page)
    (hgroup : ∀ f ∈ requiredInputs p, f.group ≠ none)
    (hslot : ∀ f ∈ requiredInputs p, p.errorText (errorId f.name) ≠ none)
    (hnames : (requiredInputs p).Pairwise (fun a b => a.name ≠ b.name))
    (hgroups : (requiredInputs p).Pairwise (fun a b => a.group ≠ b.group)) :
    ∃ b p', validateForm p = some (b, p') ∧
      (b = true ↔ ∀ f ∈ requiredInputs p, Accepts p f) ∧
      (∀ f ∈ requiredInputs p, ∀ g, f.group = some g →
        (p'.groupError g = true ↔ ∃ m, Rejects p f m)) ∧
      (∀ f ∈ requiredInputs p, ∀ m, Rejects p f m →
        p'.errorText (errorId f.name) = some m) := by
  obtain ⟨p', h1, h2, h3, -, -, -⟩ :=
    validateFormLoop_spec (requiredInputs p) true p hgroup hslot hnames hgroups
  have key : ∀ f ∈ requiredInputs p, ∃ g old, f.group = some g ∧
      p.errorText (errorId f.name) = some old := by
    intro f hf
    obtain ⟨g, hg⟩ := Option.ne_none_iff_exists'.1 (hgroup f hf)
    obtain ⟨old, hold⟩ := Option.ne_none_iff_exists'.1 (hslot f hf)
    exact ⟨g, old, hg, hold⟩
  refine ⟨_, p', h1, ?_, ?_, ?_⟩
  · simp only [Bool.true_and, List.all_eq_true]
    constructor
    · intro h f hf
      obtain ⟨g, old, hg, hold⟩ := key f hf
      exact (accepts_iff p f g old hg hold).2 (h f hf)
    · intro h f hf
      obtain ⟨g, old, hg, hold⟩ := key f hf
      exact (accepts_iff p f g old hg hold).1 (h f hf)
  · intro f hf g hg
    obtain ⟨g0, old, hg0, hold⟩ := key f hf
    rw [h2 f hf g hg, exists_rejects_iff p f g old hg hold]
    cases (checkField f.name (trim f.value)).1 <;> simp
  · intro f hf m hm
    obtain ⟨g, old, hg, hold⟩ := key f hf
    rw [rejects_iff p f g old m hg hold] at hm
    rw [h3 f hf, hm]

/-- Witness of C4: with 'A' as name and a valid email and message, all three
required, `validateForm` returns `false` and marks the name container only. -/
theorem validateForm_all_witness :
    (∀ f ∈ requiredInputs (demoPage demoForm), f.group ≠ none) ∧
    (∀ f ∈ requiredInputs (demoPage demoForm),
      (demoPage demoForm).errorText (errorId f.name) ≠ none) ∧
    (requiredInputs (demoPage demoForm)).Pairwise (fun a b => a.name ≠ b.name) ∧
    (requiredInputs (demoPage demoForm)).Pairwise (fun a b => a.group ≠ b.group) ∧
    ∃ p', validateForm (demoPage demoForm) = some (false, p') ∧
      p'.groupError 1 = true ∧ p'.groupError 2 = false ∧ p'.groupError 3 = false := by
  refine ⟨by decide, by decide, by decide, by decide, ?_⟩
  obtain ⟨b, p', h, hb, hmark, -⟩ :=
    validateForm_all (demoPage demoForm) (by decide) (by decide) (by decide) (by decide)
  have hr : ∀ f ∈ requiredInputs (demoPage demoForm), ∀ g, f.group = some g →
      (p'.groupError g = true ↔ (checkField f.name (trim f.value)).1 = false) := by
    intro f hf g hg
    rw [hmark f hf g hg]
    obtain ⟨old, hold⟩ := Option.ne_none_iff_exists'.1
      ((by decide : ∀ f ∈ requiredInputs (demoPage demoForm),
        (demoPage demoForm).errorText (errorId f.name) ≠ none) f hf)
    exact exists_rejects_iff _ f g old hg hold
  have h1 := hr (demoField "name" "A" 1) (by decide) 1 rfl
  have h2 := hr (demoField "email" "jo@x.com" 2) (by decide) 2 rfl
  have h3 := hr (demoField "message" "this is long enough" 3) (by decide) 3 rfl
  have hb0 : b = false := by
    cases b with
    | false => rfl
    | true =>
      have ha := hb.1 rfl (demoField "name" "A" 1) (by decide)
      rw [accepts_iff _ _ 1 [] (by decide) (by decide)] at ha
      revert ha
      decide
  rw [hb0] at h
  refine ⟨p', h, h1.2 (by decide), ?_, ?_⟩
  · cases hq : p'.groupError 2 with
    | false => rfl
    | true =>
      have := h2.1 hq
      revert this
      decide
  · cases hq : p'.groupError 3 with
    | false => rfl
    | true =>
      have := h3.1 hq
      revert this
      decide

/-! ## Notifications -/

theorem showNotification_singleton (message type : JSString) (p : Page)
    (h : p.notifications.length ≤ 1) :
    (showNotification message type p).notifications =
      [{ id := p.created, message := message, type := type, reversed := false,
         nested := nestedNotifications p message }] := by
  unfold showNotification
  cases hn : p.notifications with
  | nil => simp
  | cons x rest =>
    rw [hn] at h
    have hrest : rest = [] := List.length_eq_zero.1 (by simpa using h)
    simp [hrest]

theorem step_markup (p : Page) (e : Event) : (step p e).markup = p.markup := by
  cases e <;> simp only [step] <;> try split_ifs
  all_goals rfl

theorem run_markup (events : List Event) (p : Page) : (run p events).markup = p.markup := by
  induction events generalizing p with
  | nil => rfl
  | cons e rest ih => exact (ih (step p e)).trans (step_markup p e)

/-- An attached notification without nested elements, or none at all. -/
theorem step_plain (p : Page) (e : Event)
    (he : ∀ message type, e = .showCall message type → nestedNotifications p message = 0)
    (h : p.notifications.length ≤ 1 ∧ ∀ x ∈ p.notifications, x.nested = 0) :
    (step p e).notifications.length ≤ 1 ∧ ∀ x ∈ (step p e).notifications, x.nested = 0 := by
  cases e with
  | showCall message type =>
    simp only [step, showNotification_singleton message type p h.1]
    refine ⟨by simp, ?_⟩
    intro x hx
    rw [List.mem_singleton] at hx
    rw [hx]
    exact he message type rfl
  | closeClick n =>
    simp only [step]
    split_ifs
    · refine ⟨by simpa [closeNotification] using h.1, ?_⟩
      intro x hx
      simp only [closeNotification, List.mem_map] at hx
      obtain ⟨y, hy, rfl⟩ := hx
      split_ifs
      · exact h.2 y hy
      · exact h.2 y hy
    · exact h
  | autoCloseFires n =>
    simp only [step]
    split_ifs
    · refine ⟨by simpa [closeNotification] using h.1, ?_⟩
      intro x hx
      simp only [closeNotification, List.mem_map] at hx
      obtain ⟨y, hy, rfl⟩ := hx
      split_ifs
      · exact h.2 y hy
      · exact h.2 y hy
    · exact h
  | exitFires n =>
    simp only [step]
    split_ifs
    · exact ⟨le_trans (List.length_filter_le _ _) h.1,
        fun x hx => h.2 x (List.mem_of_mem_filter hx)⟩
    · exact h

theorem run_plain (events : List Event) (p : Page)
    (he : ∀ message type, Event.showCall message type ∈ events →
      nestedNotifications p message = 0)
    (h : p.notifications.length ≤ 1 ∧ ∀ x ∈ p.notifications, x.nested = 0) :
    (run p events).notifications.length ≤ 1 ∧
      ∀ x ∈ (run p events).notifications, x.nested = 0 := by
  induction events generalizing p with
  | nil => exact h
  | cons e rest ih =>
    refine ih (step p e) ?_ (step_plain p e ?_ h)
    · intro message type hm
      have := he message type (List.mem_cons_of_mem _ hm)
      simpa [nestedNotifications, step_markup] using this
    · intro message type hm
      exact he message type (by rw [hm]; exact List.mem_cons_self _ _)

theorem attachedCount_le_one (p : Page)
    (h : p.notifications.length ≤ 1 ∧ ∀ x ∈ p.notifications, x.nested = 0) :
    attachedCount p ≤ 1 := by
  unfold attachedCount
  cases hn : p.notifications with
  | nil => simp
  | cons x rest =>
    rw [hn] at h
    have hrest : rest = [] := List.length_eq_zero.1 (by simpa using h.1)
    have hx := h.2 x (List.mem_cons_self _ _)
    simp [hrest, hx]

/-- C8, as stated, fails: one call of `showNotification` with the message
`<div class=notification>x</div>` on a page without notifications leaves two
elements matching `.notification` attached, the new element and the one parsed
from the message. -/
theorem markup_message_attaches_two :
    (demoPage validForm).notifications = [] ∧
    attachedCount (run (demoPage validForm)
      [.showCall (utf16 "<div class=notification>x</div>") (utf16 "info")]) = 2 :=
  ⟨rfl, by decide⟩

/-- C8, amended: from a page with no notification attached, after any sequence
of close clicks, auto-dismiss firings, removal firings and `showNotification`
calls whose message yields no element of class `notification` (as every message
without `<` does), at most one element matching `.notification` is attached,
and a further such `showNotification` call leaves exactly one attached: the one
just created. -/
theorem notifications_at_most_one (p : Page) (h : p.notifications = [])
    (events : List Event)
    (htext : ∀ message type, Event.showCall message type ∈ events →
      nestedNotifications p message = 0) :
    attachedCount (run p events) ≤ 1 ∧
    ∀ message type, nestedNotifications p message = 0 →
      (step (run p events) (.showCall message type)).notifications =
        [{ id := (run p events).created, message := message, type := type,
           reversed := false, nested := 0 }] ∧
      attachedCount (step (run p events) (.showCall message type)) = 1 := by
  have hl := run_plain events p htext (by simp [h])
  refine ⟨attachedCount_le_one _ hl, ?_⟩
  intro message type hm
  have hm2 : nestedNotifications (run p events) message = 0 := by
    simpa [nestedNotifications, run_markup] using hm
  have hs := showNotification_singleton message type (run p events) hl.1
  rw [hm2] at hs
  refine ⟨hs, ?_⟩
  simp only [step, attachedCount, hs]
  rfl

/-- Witness of the amended C8: two notifications shown in succession, the
second one closed by a click and removed by its timer, then a third one shown;
no message holds `<`. -/
theorem notifications_at_most_one_witness :
    (demoPage validForm).notifications = [] ∧
    (∀ message type, Event.showCall message type ∈
        [Event.showCall (utf16 "one") (utf16 "info"),
          Event.showCall (utf16 "two") (utf16 "error"),
          Event.closeClick 1, Event.exitFires 1] →
      nestedNotifications (demoPage validForm) message = 0) ∧
    nestedNotifications (demoPage validForm) (utf16 "three") = 0 ∧
    attachedCount (run (demoPage validForm)
      [.showCall (utf16 "one") (utf16 "info"), .showCall (utf16 "two") (utf16 "error"),
        .closeClick 1, .exitFires 1]) ≤ 1 ∧
    attachedCount (step (run (demoPage validForm)
      [.showCall (utf16 "one") (utf16 "info"), .showCall (utf16 "two") (utf16 "error"),
        .closeClick 1, .exitFires 1]) (.showCall (utf16 "three") (utf16 "success"))) = 1 := by
  have ht : ∀ message type, Event.showCall message type ∈
        [Event.showCall (utf16 "one") (utf16 "info"),
          Event.showCall (utf16 "two") (utf16 "error"),
          Event.closeClick 1, Event.exitFires 1] →
      nestedNotifications (demoPage validForm) message = 0 := by
    intro message type hm
    simp only [List.mem_cons, Event.showCall.injEq, reduceCtorEq, List.not_mem_nil,
      or_false] at hm
    rcases hm with ⟨hm, -⟩ | ⟨hm, -⟩
    · rw [hm]
      decide
    · rw [hm]
      decide
  have hw := notifications_at_most_one (demoPage validForm) rfl
    [.showCall (utf16 "one") (utf16 "info"), .showCall (utf16 "two") (utf16 "error"),
      .closeClick 1, .exitFires 1] ht
  exact ⟨rfl, ht, by decide, hw.1, (hw.2 (utf16 "three") (utf16 "success") (by decide)).2⟩

/-! ## Submission -/

theorem validateField_frame (p p' : Page) (field : Field) (v : Bool)
    (h : validateField p field = some (v, p')) :
    p'.fields = p.fields ∧ p'.button = p.button ∧ p'.notifications = p.notifications := by
  unfold validateField at h
  cases hg : field.group with
  | none => simp [hg] at h
  | some g =>
    cases hs : p.errorText (errorId field.name) with
    | none => simp [hg, hs] at h
    | some old =>
      simp only [hg, hs] at h
      split_ifs at h <;>
      · simp only [Option.some.injEq, Prod.mk.injEq] at h
        obtain ⟨-, rfl⟩ := h
        exact ⟨rfl, rfl, rfl⟩

theorem validateFormLoop_frame (fs : List Field) (acc b : Bool) (p p' : Page)
    (h : validateFormLoop fs acc p = some (b, p')) :
    p'.fields = p.fields ∧ p'.button = p.button ∧ p'.notifications = p.notifications := by
  induction fs generalizing acc p with
  | nil =>
    simp only [validateFormLoop, Option.some.injEq, Prod.mk.injEq] at h
    obtain ⟨-, rfl⟩ := h
    exact ⟨rfl, rfl, rfl⟩
  | cons f rest ih =>
    simp only [validateFormLoop] at h
    cases hf : validateField p f with
    | none => simp [hf] at h
    | some r =>
      obtain ⟨v, p1⟩ := r
      simp only [hf] at h
      obtain ⟨h1, h2, h3⟩ := ih _ p1 h
      obtain ⟨g1, g2, g3⟩ := validateField_frame p p1 f v hf
      exact ⟨h1.trans g1, h2.trans g2, h3.trans g3⟩

theorem validateForm_of_verdict (p : Page) (b : Bool)
    (h : (validateForm p).map Prod.fst = some b) :
    ∃ p1, validateForm p = some (b, p1) ∧ p1.fields = p.fields ∧ p1.button = p.button := by
  cases hv : validateForm p with
  | none => simp [hv] at h
  | some r =>
    obtain ⟨b0, p1⟩ := r
    simp only [hv, Option.map_some', Option.some.injEq] at h
    subst h
    obtain ⟨h1, h2, -⟩ := validateFormLoop_frame _ _ _ _ _ hv
    exact ⟨p1, rfl, h1, h2⟩

/-- C6: when aggregate validation passes, whichever way the simulated submission
settles and whatever other handlers do meanwhile, `handleFormSubmit` completes
with the submit control enabled and without the 'loading' mark; the control is
disabled and marked at the moment the submission is awaited. -/
theorem handleFormSubmit_button_cleared (during : Page → Page) (aboveThreshold : Bool)
    (p : Page) (h : (validateForm p).map Prod.fst = some true) :
    ∃ trace p', handleFormSubmit during aboveThreshold p = some (trace, p') ∧
      p'.button.disabled = false ∧ p'.button.loading = false ∧
      ∃ q, (Stmt.simulateFormSubmission, q) ∈ trace ∧
        q.button.disabled = true ∧ q.button.loading = true := by
  obtain ⟨p1, hv, -, -⟩ := validateForm_of_verdict p true h
  unfold handleFormSubmit
  rw [hv]
  cases aboveThreshold <;>
  · refine ⟨_, _, rfl, ?_, ?_, ?_⟩
    · simp [submitStmts, simulateFormSubmission, execAll, exec]
    · simp [submitStmts, simulateFormSubmission, execAll, exec]
    · refine ⟨exec during (.setDisabled true) (exec during .addLoading p1), ?_, rfl, rfl⟩
      simp [submitStmts, simulateFormSubmission, execAll]

/-- Witness of C6 on the form of the end-to-end scenario, the submission
rejected and the control re-disabled by another handler during the wait. -/
theorem handleFormSubmit_button_cleared_witness :
    (validateForm (demoPage validForm)).map Prod.fst = some true ∧
    ∃ trace p',
      handleFormSubmit (fun x => { x with button := { loading := true, disabled := true } })
        false (demoPage validForm) = some (trace, p') ∧
      p'.button.disabled = false ∧ p'.button.loading = false := by
  refine ⟨by decide, ?_⟩
  obtain ⟨trace, p', h1, h2, h3, -⟩ := handleFormSubmit_button_cleared
    (fun x => { x with button := { loading := true, disabled := true } })
    false (demoPage validForm) (by decide)
  exact ⟨trace, p', h1, h2, h3⟩

/-- C7: when `validateForm` returns `false`, `handleFormSubmit` executes one
statement only, the error notification 'Por favor, corrija os erros no
formulário.': the simulated submission is not invoked, the submit control is
neither disabled nor marked 'loading' at any point, and the field values are
as before. -/
theorem handleFormSubmit_invalid (during : Page → Page) (aboveThreshold : Bool)
    (p : Page) (h : (validateForm p).map Prod.fst = some false) :
    ∃ p1 p', validateForm p = some (false, p1) ∧
      handleFormSubmit during aboveThreshold p =
        some ([(Stmt.showNotification (utf16 "Por favor, corrija os erros no formulário.")
          (utf16 "error"), p1)], p') ∧
      p' = showNotification (utf16 "Por favor, corrija os erros no formulário.")
        (utf16 "error") p1 ∧
      p1.button = p.button ∧ p'.button = p.button ∧
      p1.fields = p.fields ∧ p'.fields = p.fields := by
  obtain ⟨p1, hv, hf, hb⟩ := validateForm_of_verdict p false h
  refine ⟨p1, _, hv, ?_, rfl, hb, hb, hf, hf⟩
  unfold handleFormSubmit
  rw [hv]
  rfl

/-- Witness of C7 on the form with the name 'A'. -/
theorem handleFormSubmit_invalid_witness :
    (validateForm (demoPage demoForm)).map Prod.fst = some false ∧
    ∃ p1 p', handleFormSubmit id true (demoPage demoForm) =
        some ([(Stmt.showNotification (utf16 "Por favor, corrija os erros no formulário.")
          (utf16 "error"), p1)], p') ∧
      p'.button = (demoPage demoForm).button ∧ p'.fields = (demoPage demoForm).fields := by
  refine ⟨by decide, ?_⟩
  obtain ⟨p1, p', -, h2, -, -, h5, -, h7⟩ :=
    handleFormSubmit_invalid id true (demoPage demoForm) (by decide)
  exact ⟨p1, p', h2, h5, h7⟩

/-- The statements `handleFormSubmit` executes on a valid form, with the page
each is executed on. -/
theorem handleFormSubmit_valid (during : Page → Page) (aboveThreshold : Bool)
    (p p1 : Page) (hv : validateForm p = some (true, p1)) :
    handleFormSubmit during aboveThreshold p =
      some (execAll during (submitStmts true aboveThreshold) p1) := by
  unfold handleFormSubmit
  rw [hv]

/-- C9, as stated, fails: on the valid form of the end-to-end scenario, for
both outcomes and with nothing else happening during the wait, the terminal
`showNotification` is called on a page where the submit control is still
disabled and still marked 'loading'. -/
theorem notification_shown_while_loading :
    (validateForm (demoPage validForm)).map Prod.fst = some true ∧
    (∃ trace p' q, handleFormSubmit id true (demoPage validForm) = some (trace, p') ∧
      (Stmt.showNotification
        (utf16 "Mensagem enviada com sucesso! Entraremos em contato em breve.")
        (utf16 "success"), q) ∈ trace ∧
      q.button.disabled = true ∧ q.button.loading = true) ∧
    (∃ trace p' q, handleFormSubmit id false (demoPage validForm) = some (trace, p') ∧
      (Stmt.showNotification (utf16 "Erro ao enviar mensagem. Tente novamente.")
        (utf16 "error"), q) ∈ trace ∧
      q.button.disabled = true ∧ q.button.loading = true) := by
  have h : (validateForm (demoPage validForm)).map Prod.fst = some true := by decide
  obtain ⟨p1, hv, -, -⟩ := validateForm_of_verdict _ true h
  refine ⟨h, ?_, ?_⟩
  · refine ⟨_, _, exec id .simulateFormSubmission
      (exec id (.setDisabled true) (exec id .addLoading p1)),
      by rw [handleFormSubmit_valid id true _ p1 hv], ?_, rfl, rfl⟩
    simp [submitStmts, simulateFormSubmission, execAll]
  · refine ⟨_, _, exec id .simulateFormSubmission
      (exec id (.setDisabled true) (exec id .addLoading p1)),
      by rw [handleFormSubmit_valid id false _ p1 hv], ?_, rfl, rfl⟩
    simp [submitStmts, simulateFormSubmission, execAll]

/-- C9, amended: in every submit attempt that reaches the submission, for both
outcomes, the trace holds exactly one `showNotification`, the terminal one; it
is called on the page as it is when the wait ends, so, other handlers leaving
the submit control alone, the control is then still disabled and marked
'loading'; the mark and the disabled flag are removed by later statements and
are gone at completion. -/
theorem notification_before_reset (during : Page → Page) (aboveThreshold : Bool)
    (p : Page) (h : (validateForm p).map Prod.fst = some true)
    (hd : ∀ x, (during x).button = x.button) :
    ∃ trace p' pre post message type q,
      handleFormSubmit during aboveThreshold p = some (trace, p') ∧
      trace = pre ++ (Stmt.showNotification message type, q) :: post ∧
      (∀ e ∈ pre ++ post, ∀ m t, e.1 ≠ Stmt.showNotification m t) ∧
      q.button.disabled = true ∧ q.button.loading = true ∧
      Stmt.removeLoading ∈ post.map Prod.fst ∧
      Stmt.setDisabled false ∈ post.map Prod.fst ∧
      p'.button.disabled = false ∧ p'.button.loading = false := by
  obtain ⟨p1, hv, -, -⟩ := validateForm_of_verdict p true h
  rw [handleFormSubmit_valid during aboveThreshold p p1 hv]
  cases aboveThreshold with
  | true =>
    refine ⟨_, _,
      [(.addLoading, p1), (.setDisabled true, exec during .addLoading p1),
        (.simulateFormSubmission, exec during (.setDisabled true) (exec during .addLoading p1))],
      (execAll during [.formReset, .clearGroupErrors, .clearErrorTexts, .removeLoading,
        .setDisabled false]
        (exec during (.showNotification
          (utf16 "Mensagem enviada com sucesso! Entraremos em contato em breve.")
          (utf16 "success"))
          (exec during .simulateFormSubmission
            (exec during (.setDisabled true) (exec during .addLoading p1))))).1,
      utf16 "Mensagem enviada com sucesso! Entraremos em contato em breve.",
      utf16 "success",
      exec during .simulateFormSubmission
        (exec during (.setDisabled true) (exec during .addLoading p1)),
      rfl, ?_, ?_, ?_, ?_, ?_, ?_, ?_, ?_⟩
    · simp [submitStmts, simulateFormSubmission, execAll]
    · simp [execAll]
    · simp [exec, hd]
    · simp [exec, hd]
    · simp [execAll]
    · simp [execAll]
    · simp [submitStmts, simulateFormSubmission, execAll, exec]
    · simp [submitStmts, simulateFormSubmission, execAll, exec]
  | false =>
    refine ⟨_, _,
      [(.addLoading, p1), (.setDisabled true, exec during .addLoading p1),
        (.simulateFormSubmission, exec during (.setDisabled true) (exec during .addLoading p1))],
      (execAll during [.removeLoading, .setDisabled false]
        (exec during (.showNotification (utf16 "Erro ao enviar mensagem. Tente novamente.")
          (utf16 "error"))
          (exec during .simulateFormSubmission
            (exec during (.setDisabled true) (exec during .addLoading p1))))).1,
      utf16 "Erro ao enviar mensagem. Tente novamente.",
      utf16 "error",
      exec during .simulateFormSubmission
        (exec during (.setDisabled true) (exec during .addLoading p1)),
      rfl, ?_, ?_, ?_, ?_, ?_, ?_, ?_, ?_⟩
    · simp [submitStmts, simulateFormSubmission, execAll]
    · simp [execAll]
    · simp [exec, hd]
    · simp [exec, hd]
    · simp [execAll]
    · simp [execAll]
    · simp [submitStmts, simulateFormSubmission, execAll, exec]
    · simp [submitStmts, simulateFormSubmission, execAll, exec]

/-- Witness of the amended C9 on the form of the end-to-end scenario, the
submission resolved and nothing else happening during the wait. -/
theorem notification_before_reset_witness :
    (validateForm (demoPage validForm)).map Prod.fst = some true ∧
    (∀ x : Page, (id x).button = x.button) ∧
    ∃ trace p' pre post message type q,
      handleFormSubmit id true (demoPage validForm) = some (trace, p') ∧
      trace = pre ++ (Stmt.showNotification message type, q) :: post ∧
      q.button.disabled = true ∧ q.button.loading = true ∧
      p'.button.disabled = false ∧ p'.button.loading = false := by
  refine ⟨by decide, fun _ => rfl, ?_⟩
  obtain ⟨trace, p', pre, post, message, type, q, h1, h2, -, h4, h5, -, -, h8, h9⟩ :=
    notification_before_reset id true (demoPage validForm) (by decide) (fun _ => rfl)
  exact ⟨trace, p', pre, post, message, type, q, h1, h2, h4, h5, h8, h9⟩

end LandingPage
